import Mathlib

/-!
Verification of the Referral-Rule-Builder repository.

Part A models the SQL schema (src/unnamed/part_000): the `ledger_entries`
and `reward_events` tables, their constraints (`idx_ledger_idempotency`,
`valid_participants`, the unique `idempotency_key` on `reward_events`),
the `enforce_ledger_immutability` trigger, and the `user_balances` view.
UUID columns are modelled as `Nat`, `DECIMAL(15,2)` amounts as `Int`
(a fixed-point quantity), `VARCHAR` as `String`.  Columns that no claim
touches (timestamps, description, metadata, foreign keys) are omitted;
omitting a constraint only enlarges the set of reachable database
states, so invariants proved here hold a fortiori for the real schema.

Part B models the visual flow builder (src/flow-builder/flow-builder.js):
its mutable `state` object, node creation from the palette templates,
connection handling, deletion, `buildRuleJSON` and
`parseNaturalLanguage`.  JavaScript objects used as string-keyed bags
(`node.config`, action `params`) are modelled as association lists; the
JS connection fields `from`/`to` are renamed `fromId`/`toId` because
`from` is a Lean keyword.
-/

/-- `entry_type` enum of the schema. -/
inductive EntryType where
  | CREDIT
  | DEBIT
  | REVERSAL
deriving DecidableEq, Repr

/-- `reward_status` enum of the schema. -/
inductive RewardStatus where
  | PENDING
  | CONFIRMED
  | PAID
  | REVERSED
  | EXPIRED
deriving DecidableEq, Repr

/-- A row of `ledger_entries` (columns the claims mention). -/
structure LedgerEntry where
  user_id : Nat
  entry_type : EntryType
  amount : Int
  currency : String
  balance_after : Int
  idempotency_key : String
deriving DecidableEq, Repr

/-- A row of `reward_events` (columns the claims mention). -/
structure RewardEvent where
  idempotency_key : String
  referrer_user_id : Nat
  referred_user_id : Nat
  status : RewardStatus
  amount : Int
  currency : String
deriving DecidableEq, Repr

/-- The database state: the two tables the claims concern.
SQL tables are multisets of rows; we keep rows in insertion order. -/
structure DBState where
  ledger_entries : List LedgerEntry
  reward_events : List RewardEvent
deriving DecidableEq, Repr

def initDB : DBState := { ledger_entries := [], reward_events := [] }

/-- One DML statement against the two tables.  Updates and deletes
address a row by its position in the list. -/
inductive DBOp where
  | insertLedger (e : LedgerEntry)
  | updateLedger (i : Nat) (e : LedgerEntry)
  | deleteLedger (i : Nat)
  | insertReward (e : RewardEvent)
  | updateReward (i : Nat) (e : RewardEvent)
  | deleteReward (i : Nat)
deriving DecidableEq, Repr

/-- Executes one DML statement with the schema's constraint checks:
* `insertLedger` enforces the unique index `idx_ledger_idempotency`
  on `(idempotency_key, entry_type)`;
* `updateLedger` / `deleteLedger` that target an existing row are
  rejected by the `enforce_ledger_immutability` trigger (`BEFORE UPDATE
  OR DELETE ... RAISE EXCEPTION`); a statement matching no row succeeds
  with zero rows affected;
* `insertReward` enforces the `valid_participants` check
  (`referrer_user_id != referred_user_id`) and the `UNIQUE`
  `idempotency_key` column;
* `updateReward` enforces the same two constraints against the other
  rows; since SQL row order is not observable the updated row is
  modelled as removed and re-appended;
* `deleteReward` removes the addressed row. -/
def applyDBOp (s : DBState) : DBOp → Except String DBState
  | .insertLedger e =>
      if ∃ x ∈ s.ledger_entries,
          x.idempotency_key = e.idempotency_key ∧ x.entry_type = e.entry_type then
        .error "duplicate key value violates unique index idx_ledger_idempotency"
      else
        .ok { s with ledger_entries := s.ledger_entries ++ [e] }
  | .updateLedger i _ =>
      if i < s.ledger_entries.length then .error "Ledger entries are immutable"
      else .ok s
  | .deleteLedger i =>
      if i < s.ledger_entries.length then .error "Ledger entries are immutable"
      else .ok s
  | .insertReward e =>
      if e.referrer_user_id = e.referred_user_id then
        .error "new row violates check constraint valid_participants"
      else if ∃ x ∈ s.reward_events, x.idempotency_key = e.idempotency_key then
        .error "duplicate key value violates unique constraint on idempotency_key"
      else
        .ok { s with reward_events := s.reward_events ++ [e] }
  | .updateReward i e =>
      if i < s.reward_events.length then
        if e.referrer_user_id = e.referred_user_id then
          .error "new row violates check constraint valid_participants"
        else if ∃ x ∈ s.reward_events.eraseIdx i,
            x.idempotency_key = e.idempotency_key then
          .error "duplicate key value violates unique constraint on idempotency_key"
        else
          .ok { s with reward_events := s.reward_events.eraseIdx i ++ [e] }
      else .ok s
  | .deleteReward i =>
      .ok { s with reward_events := s.reward_events.eraseIdx i }

/-- One committed transition: some DML statement succeeded. -/
def DBStep (s s' : DBState) : Prop := ∃ op, applyDBOp s op = Except.ok s'

theorem dbStep_of_apply {s s' : DBState} (op : DBOp)
    (h : applyDBOp s op = Except.ok s') : DBStep s s' := ⟨op, h⟩

/-- Database states reachable from the freshly provisioned schema. -/
def DBReachable (s : DBState) : Prop := Relation.ReflTransGen DBStep initDB s

/-- The invariant maintained by every committed statement. -/
def DBInv (s : DBState) : Prop :=
  List.Pairwise
      (fun a b : LedgerEntry =>
        ¬(a.idempotency_key = b.idempotency_key ∧ a.entry_type = b.entry_type))
      s.ledger_entries
  ∧ List.Pairwise
      (fun a b : RewardEvent => a.idempotency_key ≠ b.idempotency_key)
      s.reward_events
  ∧ ∀ r ∈ s.reward_events, r.referrer_user_id ≠ r.referred_user_id

theorem dbStep_ledger_sublist {s s' : DBState} (h : DBStep s s') :
    List.Sublist s.ledger_entries s'.ledger_entries := by
  obtain ⟨op, hop⟩ := h
  cases op with
  | insertLedger e =>
      simp only [applyDBOp] at hop
      split at hop
      · cases hop
      · injection hop with hop; subst hop; exact List.sublist_append_left _ _
  | updateLedger i e =>
      simp only [applyDBOp] at hop
      split at hop
      · cases hop
      · injection hop with hop; subst hop; exact List.Sublist.refl _
  | deleteLedger i =>
      simp only [applyDBOp] at hop
      split at hop
      · cases hop
      · injection hop with hop; subst hop; exact List.Sublist.refl _
  | insertReward e =>
      simp only [applyDBOp] at hop
      split at hop
      · cases hop
      · split at hop
        · cases hop
        · injection hop with hop; subst hop; exact List.Sublist.refl _
  | updateReward i e =>
      simp only [applyDBOp] at hop
      split at hop
      · split at hop
        · cases hop
        · split at hop
          · cases hop
          · injection hop with hop; subst hop; exact List.Sublist.refl _
      · injection hop with hop; subst hop; exact List.Sublist.refl _
  | deleteReward i =>
      simp only [applyDBOp] at hop
      injection hop with hop; subst hop; exact List.Sublist.refl _

theorem dbSteps_ledger_sublist {s s' : DBState}
    (h : Relation.ReflTransGen DBStep s s') :
    List.Sublist s.ledger_entries s'.ledger_entries := by
  induction h with
  | refl => exact List.Sublist.refl _
  | tail _ hstep ih => exact ih.trans (dbStep_ledger_sublist hstep)

theorem dbStep_preserves_inv {s s' : DBState} (h : DBStep s s') (hi : DBInv s) :
    DBInv s' := by
  obtain ⟨hL, hR, hP⟩ := hi
  obtain ⟨op, hop⟩ := h
  cases op with
  | insertLedger e =>
      simp only [applyDBOp] at hop
      split at hop
      · cases hop
      · rename_i hdup
        injection hop with hop; subst hop
        refine ⟨?_, hR, hP⟩
        rw [List.pairwise_append]
        refine ⟨hL, List.pairwise_singleton _ _, ?_⟩
        intro a ha b hb
        simp only [List.mem_singleton] at hb; subst hb
        intro ⟨h1, h2⟩
        exact hdup ⟨a, ha, h1, h2⟩
  | updateLedger i e =>
      simp only [applyDBOp] at hop
      split at hop
      · cases hop
      · injection hop with hop; subst hop; exact ⟨hL, hR, hP⟩
  | deleteLedger i =>
      simp only [applyDBOp] at hop
      split at hop
      · cases hop
      · injection hop with hop; subst hop; exact ⟨hL, hR, hP⟩
  | insertReward e =>
      simp only [applyDBOp] at hop
      split at hop
      · cases hop
      · rename_i hpart
        split at hop
        · cases hop
        · rename_i hdup
          injection hop with hop; subst hop
          refine ⟨hL, ?_, ?_⟩
          · rw [List.pairwise_append]
            refine ⟨hR, List.pairwise_singleton _ _, ?_⟩
            intro a ha b hb
            simp only [List.mem_singleton] at hb; subst hb
            intro h1
            exact hdup ⟨a, ha, h1⟩
          · intro r hr
            rcases List.mem_append.mp hr with hr | hr
            · exact hP r hr
            · simp only [List.mem_singleton] at hr; subst hr; exact hpart
  | updateReward i e =>
      simp only [applyDBOp] at hop
      split at hop
      · split at hop
        · cases hop
        · rename_i hpart
          split at hop
          · cases hop
          · rename_i hdup
            injection hop with hop; subst hop
            have hsub : List.Sublist (s.reward_events.eraseIdx i) s.reward_events :=
              List.eraseIdx_sublist _ _
            refine ⟨hL, ?_, ?_⟩
            · rw [List.pairwise_append]
              refine ⟨hR.sublist hsub, List.pairwise_singleton _ _, ?_⟩
              intro a ha b hb
              simp only [List.mem_singleton] at hb; subst hb
              intro h1
              exact hdup ⟨a, ha, h1⟩
            · intro r hr
              rcases List.mem_append.mp hr with hr | hr
              · exact hP r (hsub.mem hr)
              · simp only [List.mem_singleton] at hr; subst hr; exact hpart
      · injection hop with hop; subst hop; exact ⟨hL, hR, hP⟩
  | deleteReward i =>
      simp only [applyDBOp] at hop
      injection hop with hop; subst hop
      have hsub : List.Sublist (s.reward_events.eraseIdx i) s.reward_events :=
        List.eraseIdx_sublist _ _
      exact ⟨hL, hR.sublist hsub, fun r hr => hP r (hsub.mem hr)⟩

theorem dbReachable_inv {s : DBState} (h : DBReachable s) : DBInv s := by
  induction h with
  | refl =>
      refine ⟨List.Pairwise.nil, List.Pairwise.nil, ?_⟩
      intro r hr; cases hr
  | tail _ hstep ih => exact dbStep_preserves_inv hstep ih

/-! ### The `user_balances` view and the spec-modelled `LedgerStore.append`

The view (part_000 lines 103-111) groups `ledger_entries` by
`(user_id, currency)` and reports `SUM(amount)` as `current_balance`.
The code that computes `balance_after` at append time (the
`LedgerStore.append` of spec section 4.3) is not part of src/, so it is
modelled from the spec below. -/

/-- The rows of `ledger_entries` belonging to one `(user_id, currency)`
group of the view (rows kept in table order, which is insertion order
because entries are append-only). -/
def entriesFor (es : List LedgerEntry) (uid : Nat) (cur : String) :
    List LedgerEntry :=
  es.filter (fun e => e.user_id == uid && e.currency == cur)

/-- `SUM(amount)` of the `user_balances` view for one group, folded in
row order as the aggregate scans the table. -/
def user_balances_current_balance (es : List LedgerEntry) (uid : Nat)
    (cur : String) : Int :=
  (entriesFor es uid cur).foldl (fun acc e => acc + e.amount) 0

/-- The sum of all amounts of a list of entries. -/
def sumAmounts (es : List LedgerEntry) : Int :=
  (es.map (fun e => e.amount)).sum

/-- Modelled from the spec: `LedgerStore.getBalance(user_id, currency)`,
the sum over all entries for that key (spec section 4.3); src/ holds
only the SQL view, not the store code. -/
def getBalance (es : List LedgerEntry) (uid : Nat) (cur : String) : Int :=
  sumAmounts (entriesFor es uid cur)

/-- `balance_after` of the most recent entry of the group (0 when the
group is empty; the claims only use it on non-empty groups). -/
def lastBalanceAfter (es : List LedgerEntry) (uid : Nat) (cur : String) : Int :=
  match (entriesFor es uid cur).getLast? with
  | some e => e.balance_after
  | none => 0

/-- The caller-supplied part of a ledger append. -/
structure EntryDraft where
  user_id : Nat
  entry_type : EntryType
  amount : Int
  currency : String
  idempotency_key : String
deriving DecidableEq, Repr

/-- Modelled from the spec: the row written by
`LedgerStore.append(entry_draft)` (spec section 4.3, not under src/):
`balance_after` is the account's current balance plus the signed
amount, computed at append time. -/
def mkEntry (es : List LedgerEntry) (d : EntryDraft) : LedgerEntry :=
  { user_id := d.user_id, entry_type := d.entry_type,
    amount := d.amount, currency := d.currency,
    balance_after := getBalance es d.user_id d.currency + d.amount,
    idempotency_key := d.idempotency_key }

/-- Modelled from the spec: `LedgerStore.append(entry_draft)` (spec
section 4.3, not under src/).  If `idempotency_key` + `entry_type`
already exists it performs no new write; otherwise it appends the row
built by `mkEntry`. -/
def ledgerAppend (es : List LedgerEntry) (d : EntryDraft) : List LedgerEntry :=
  if es.any (fun e =>
      e.idempotency_key == d.idempotency_key && e.entry_type == d.entry_type) then
    es
  else
    es ++ [mkEntry es d]

/-- Ledger tables producible by a sequence of `LedgerStore.append`
calls starting from the empty table. -/
inductive AppendReachable : List LedgerEntry → Prop where
  | nil : AppendReachable []
  | step (es : List LedgerEntry) (d : EntryDraft) :
      AppendReachable es → AppendReachable (ledgerAppend es d)

theorem foldl_add_amount (es : List LedgerEntry) (a : Int) :
    es.foldl (fun acc e => acc + e.amount) a = a + sumAmounts es := by
  induction es generalizing a with
  | nil => simp [sumAmounts]
  | cons e es ih =>
      simp only [List.foldl_cons, ih, sumAmounts, List.map_cons, List.sum_cons]
      ring

theorem entriesFor_append (es : List LedgerEntry) (e : LedgerEntry)
    (uid : Nat) (cur : String) :
    entriesFor (es ++ [e]) uid cur =
      entriesFor es uid cur ++
        (if e.user_id == uid && e.currency == cur then [e] else []) := by
  simp only [entriesFor, List.filter_append, List.filter_singleton,
    Bool.cond_eq_if]

theorem appendReachable_balance {es : List LedgerEntry}
    (h : AppendReachable es) (uid : Nat) (cur : String) :
    entriesFor es uid cur = [] ∨
      lastBalanceAfter es uid cur = sumAmounts (entriesFor es uid cur) := by
  induction h with
  | nil => left; rfl
  | step es d hr ih =>
      unfold ledgerAppend
      split
      · exact ih
      · rcases hm : ((mkEntry es d).user_id == uid &&
            (mkEntry es d).currency == cur) with _ | _
        · have hfe : entriesFor (es ++ [mkEntry es d]) uid cur =
              entriesFor es uid cur := by
            rw [entriesFor_append]
            simp only [hm, Bool.false_eq_true, if_false, List.append_nil]
          simp only [lastBalanceAfter, hfe]
          exact ih
        · have huid : (mkEntry es d).user_id = uid := by
            simpa using ((Bool.and_eq_true _ _).mp hm).1
          have hcur : (mkEntry es d).currency = cur := by
            simpa using ((Bool.and_eq_true _ _).mp hm).2
          right
          have hfe : entriesFor (es ++ [mkEntry es d]) uid cur =
              entriesFor es uid cur ++ [mkEntry es d] := by
            rw [entriesFor_append]
            simp only [hm, if_true]
          have hbal : (mkEntry es d).balance_after =
              sumAmounts (entriesFor es uid cur) + (mkEntry es d).amount := by
            simp only [mkEntry] at huid hcur ⊢
            simp only [getBalance, huid, hcur]
          simp only [lastBalanceAfter, hfe, List.getLast?_concat, hbal]
          simp only [sumAmounts, List.map_append, List.sum_append,
            List.map_cons, List.map_nil, List.sum_cons, List.sum_nil, add_zero]

/-! ### Claims C1 - C4 -/

/-- C1: for every sequence of ledger appends to a fixed
`(user_id, currency)`, the balance reported for that pair by the
`user_balances` view (`SUM(amount)` over the group) equals the sum of
all that pair's entries' amounts and also equals the `balance_after` of
the most recent entry for that pair. -/
theorem user_balances_correct (es : List LedgerEntry) (uid : Nat)
    (cur : String) (h : AppendReachable es)
    (hne : entriesFor es uid cur ≠ []) :
    user_balances_current_balance es uid cur =
        sumAmounts (entriesFor es uid cur)
    ∧ user_balances_current_balance es uid cur = lastBalanceAfter es uid cur := by
  have h1 : user_balances_current_balance es uid cur =
      sumAmounts (entriesFor es uid cur) := by
    unfold user_balances_current_balance
    rw [foldl_add_amount]
    ring
  refine ⟨h1, ?_⟩
  rcases appendReachable_balance h uid cur with h2 | h2
  · exact absurd h2 hne
  · rw [h1, h2]

theorem user_balances_correct_witness :
    user_balances_current_balance
        (ledgerAppend (ledgerAppend [] ⟨1, .CREDIT, 500, "INR", "k1"⟩)
          ⟨1, .CREDIT, 200, "INR", "k2"⟩) 1 "INR" =
      sumAmounts (entriesFor
        (ledgerAppend (ledgerAppend [] ⟨1, .CREDIT, 500, "INR", "k1"⟩)
          ⟨1, .CREDIT, 200, "INR", "k2"⟩) 1 "INR")
    ∧ user_balances_current_balance
        (ledgerAppend (ledgerAppend [] ⟨1, .CREDIT, 500, "INR", "k1"⟩)
          ⟨1, .CREDIT, 200, "INR", "k2"⟩) 1 "INR" =
      lastBalanceAfter
        (ledgerAppend (ledgerAppend [] ⟨1, .CREDIT, 500, "INR", "k1"⟩)
          ⟨1, .CREDIT, 200, "INR", "k2"⟩) 1 "INR" :=
  user_balances_correct _ 1 "INR"
    (AppendReachable.step _ _ (AppendReachable.step _ _ AppendReachable.nil))
    (by decide)

/-- C2: ledger entries are immutable.  Any UPDATE or DELETE that targets
an existing `ledger_entries` row is rejected by the
`enforce_ledger_immutability` trigger, so along any sequence of
committed statements the ledger table only ever grows: every previously
created entry is still present, unchanged, in every later state. -/
theorem ledger_entries_immutable (s s' : DBState) (i : Nat)
    (e' : LedgerEntry) (hsteps : Relation.ReflTransGen DBStep s s')
    (hi : i < s.ledger_entries.length) :
    applyDBOp s (DBOp.updateLedger i e') =
        Except.error "Ledger entries are immutable"
    ∧ applyDBOp s (DBOp.deleteLedger i) =
        Except.error "Ledger entries are immutable"
    ∧ List.Sublist s.ledger_entries s'.ledger_entries := by
  refine ⟨?_, ?_, dbSteps_ledger_sublist hsteps⟩
  · simp only [applyDBOp, if_pos hi]
  · simp only [applyDBOp, if_pos hi]

theorem ledger_entries_immutable_witness :
    applyDBOp ⟨[⟨1, .CREDIT, 500, "INR", 500, "k1"⟩], []⟩
        (DBOp.updateLedger 0 ⟨1, .DEBIT, 9, "INR", 9, "x"⟩) =
      Except.error "Ledger entries are immutable"
    ∧ applyDBOp ⟨[⟨1, .CREDIT, 500, "INR", 500, "k1"⟩], []⟩
        (DBOp.deleteLedger 0) =
      Except.error "Ledger entries are immutable"
    ∧ List.Sublist
        (DBState.ledger_entries ⟨[⟨1, .CREDIT, 500, "INR", 500, "k1"⟩], []⟩)
        (DBState.ledger_entries
          ⟨[⟨1, .CREDIT, 500, "INR", 500, "k1"⟩,
            ⟨2, .CREDIT, 100, "INR", 100, "k2"⟩], []⟩) :=
  ledger_entries_immutable
    ⟨[⟨1, .CREDIT, 500, "INR", 500, "k1"⟩], []⟩
    ⟨[⟨1, .CREDIT, 500, "INR", 500, "k1"⟩,
      ⟨2, .CREDIT, 100, "INR", 100, "k2"⟩], []⟩
    0 ⟨1, .DEBIT, 9, "INR", 9, "x"⟩
    (Relation.ReflTransGen.single
      ⟨DBOp.insertLedger ⟨2, .CREDIT, 100, "INR", 100, "k2"⟩, by
        simp [applyDBOp]⟩)
    (by decide)

/-- C3: in every reachable database state no two `ledger_entries` rows
share the same `(idempotency_key, entry_type)` pair and no two
`reward_events` rows share the same `idempotency_key`; moreover a replay
(an insert whose key collides with an existing row) is rejected and so
can never commit a second row. -/
theorem idempotency_keys_unique (s : DBState) (e : LedgerEntry)
    (r : RewardEvent) (h : DBReachable s)
    (he : ∃ x ∈ s.ledger_entries,
        x.idempotency_key = e.idempotency_key ∧ x.entry_type = e.entry_type)
    (hrne : r.referrer_user_id ≠ r.referred_user_id)
    (hr : ∃ x ∈ s.reward_events, x.idempotency_key = r.idempotency_key) :
    List.Pairwise
        (fun a b : LedgerEntry =>
          ¬(a.idempotency_key = b.idempotency_key ∧
            a.entry_type = b.entry_type))
        s.ledger_entries
    ∧ List.Pairwise
        (fun a b : RewardEvent => a.idempotency_key ≠ b.idempotency_key)
        s.reward_events
    ∧ applyDBOp s (DBOp.insertLedger e) =
        Except.error "duplicate key value violates unique index idx_ledger_idempotency"
    ∧ applyDBOp s (DBOp.insertReward r) =
        Except.error "duplicate key value violates unique constraint on idempotency_key" := by
  refine ⟨(dbReachable_inv h).1, (dbReachable_inv h).2.1, ?_, ?_⟩
  · simp only [applyDBOp, if_pos he]
  · simp only [applyDBOp, if_neg hrne, if_pos hr]

theorem idempotency_keys_unique_witness :
    List.Pairwise
        (fun a b : LedgerEntry =>
          ¬(a.idempotency_key = b.idempotency_key ∧
            a.entry_type = b.entry_type))
        (DBState.ledger_entries
          ⟨[⟨1, .CREDIT, 500, "INR", 500, "k1"⟩],
           [⟨"r1", 1, 2, .PENDING, 500, "INR"⟩]⟩)
    ∧ List.Pairwise
        (fun a b : RewardEvent => a.idempotency_key ≠ b.idempotency_key)
        (DBState.reward_events
          ⟨[⟨1, .CREDIT, 500, "INR", 500, "k1"⟩],
           [⟨"r1", 1, 2, .PENDING, 500, "INR"⟩]⟩)
    ∧ applyDBOp
        ⟨[⟨1, .CREDIT, 500, "INR", 500, "k1"⟩],
         [⟨"r1", 1, 2, .PENDING, 500, "INR"⟩]⟩
        (DBOp.insertLedger ⟨3, .CREDIT, 7, "INR", 7, "k1"⟩) =
      Except.error "duplicate key value violates unique index idx_ledger_idempotency"
    ∧ applyDBOp
        ⟨[⟨1, .CREDIT, 500, "INR", 500, "k1"⟩],
         [⟨"r1", 1, 2, .PENDING, 500, "INR"⟩]⟩
        (DBOp.insertReward ⟨"r1", 4, 5, .PENDING, 9, "INR"⟩) =
      Except.error "duplicate key value violates unique constraint on idempotency_key" :=
  idempotency_keys_unique
    ⟨[⟨1, .CREDIT, 500, "INR", 500, "k1"⟩],
     [⟨"r1", 1, 2, .PENDING, 500, "INR"⟩]⟩
    ⟨3, .CREDIT, 7, "INR", 7, "k1"⟩
    ⟨"r1", 4, 5, .PENDING, 9, "INR"⟩
    (Relation.ReflTransGen.tail
      (Relation.ReflTransGen.single
        (@dbStep_of_apply initDB
          ⟨[⟨1, .CREDIT, 500, "INR", 500, "k1"⟩], []⟩
          (DBOp.insertLedger ⟨1, .CREDIT, 500, "INR", 500, "k1"⟩)
          (by simp [applyDBOp, initDB])))
      (@dbStep_of_apply
        ⟨[⟨1, .CREDIT, 500, "INR", 500, "k1"⟩], []⟩
        ⟨[⟨1, .CREDIT, 500, "INR", 500, "k1"⟩],
         [⟨"r1", 1, 2, .PENDING, 500, "INR"⟩]⟩
        (DBOp.insertReward ⟨"r1", 1, 2, .PENDING, 500, "INR"⟩)
        (by simp [applyDBOp])))
    (by decide) (by decide) (by decide)

/-- C4: in every reachable database state every `reward_events` row
satisfies `referrer_user_id != referred_user_id`, and an insert
violating the `valid_participants` check is rejected with an error, so
no mutation is applied. -/
theorem reward_valid_participants (s : DBState) (r : RewardEvent)
    (h : DBReachable s)
    (hrr : r.referrer_user_id = r.referred_user_id) :
    applyDBOp s (DBOp.insertReward r) =
        Except.error "new row violates check constraint valid_participants"
    ∧ s.reward_events.all
        (fun x => x.referrer_user_id != x.referred_user_id) = true := by
  constructor
  · simp only [applyDBOp, if_pos hrr]
  · rw [List.all_eq_true]
    intro x hx
    simpa using (dbReachable_inv h).2.2 x hx

theorem reward_valid_participants_witness :
    applyDBOp initDB (DBOp.insertReward ⟨"r1", 7, 7, .PENDING, 100, "INR"⟩) =
        Except.error "new row violates check constraint valid_participants"
    ∧ (DBState.reward_events initDB).all
        (fun x => x.referrer_user_id != x.referred_user_id) = true :=
  reward_valid_participants initDB ⟨"r1", 7, 7, .PENDING, 100, "INR"⟩
    Relation.ReflTransGen.refl rfl

/-! ### Part B: the visual flow builder (src/flow-builder/flow-builder.js) -/

/-- A JavaScript value as it occurs in node configs and rule JSON:
strings, numbers (all integral in this code), booleans, and
`undefined` for a property read that finds no key. -/
inductive JVal where
  | str (s : String)
  | num (n : Int)
  | bool (b : Bool)
  | undef
deriving DecidableEq, Repr

/-- The four palette categories (`data.nodeType`). -/
inductive NodeType where
  | trigger
  | condition
  | action
  | logic
deriving DecidableEq, Repr

/-- `data-port` of a clicked port element. -/
inductive PortType where
  | input
  | output
deriving DecidableEq, Repr

/-- One element of `state.nodes`.  The JS id string `node-<n>` is
modelled by the number `<n>`; `config` is the string-keyed bag
(association list, first binding wins like a JS object read). -/
structure FlowNode where
  id : Nat
  type : NodeType
  subType : String
  x : Int
  y : Int
  config : List (String × JVal)
deriving DecidableEq, Repr

/-- One element of `state.connections`; JS fields `from`/`to` are
renamed `fromId`/`toId` (`from` is a Lean keyword). -/
structure Conn where
  fromId : Nat
  toId : Nat
deriving DecidableEq, Repr

/-- `state.connecting`: the pending half of a connection. -/
structure Connecting where
  nodeId : Nat
  portType : PortType
deriving DecidableEq, Repr

/-- The builder's global `state` object (drag offset omitted: it only
feeds DOM geometry). -/
structure BState where
  nodes : List FlowNode
  connections : List Conn
  selectedNode : Option Nat
  connecting : Option Connecting
  nextNodeId : Nat
deriving DecidableEq, Repr

/-- The initial `state` literal. -/
def initState : BState :=
  { nodes := [], connections := [], selectedNode := none,
    connecting := none, nextNodeId := 1 }

/-- Keys of `nodeTemplates.trigger`. -/
def triggerKeys : List String :=
  ["referral_signup", "subscription_started", "payment_received"]

/-- One entry of `nodeTemplates.condition` (label and icon omitted:
they only feed the DOM). -/
structure CondTemplate where
  field : String
  operators : List String
  valueType : String
  options : List String
deriving DecidableEq, Repr

/-- `nodeTemplates.condition`, keyed by field path. -/
def condTemplates : List (String × CondTemplate) :=
  [("referrer.is_paid_user",
    ⟨"referrer.is_paid_user", ["equals", "not_equals"], "boolean", []⟩),
   ("referred.subscription_plan",
    ⟨"referred.subscription_plan", ["equals", "not_equals", "in"], "select",
     ["free", "basic", "premium", "enterprise"]⟩),
   ("referrer.tier",
    ⟨"referrer.tier", ["equals", "not_equals"], "select",
     ["standard", "silver", "gold", "VIP"]⟩),
   ("payment.amount",
    ⟨"payment.amount",
     ["equals", "greater_than", "less_than", "greater_than_or_equal"],
     "number", []⟩)]

/-- Keys of `nodeTemplates.action`. -/
def actionKeys : List String :=
  ["credit_reward", "send_notification", "update_status"]

/-- Keys of `nodeTemplates.logic`. -/
def logicKeys : List String := ["AND", "OR"]

/-- The payload read from a palette drag (`data.nodeType` together with
the key field that matters for that type). -/
inductive DropData where
  | trigger (t : String)
  | condition (f : String)
  | action (a : String)
  | logic (l : String)
deriving DecidableEq, Repr

def dropType : DropData → NodeType
  | .trigger _ => .trigger
  | .condition _ => .condition
  | .action _ => .action
  | .logic _ => .logic

def dropSubType : DropData → String
  | .trigger t => t
  | .condition f => f
  | .action a => a
  | .logic l => l

/-- Whether `nodeTemplates[nodeType][key]` exists (the `!template`
guard in `createNode`). -/
def templateExists : DropData → Bool
  | .trigger t => triggerKeys.contains t
  | .condition f => (condTemplates.lookup f).isSome
  | .action a => actionKeys.contains a
  | .logic l => logicKeys.contains l

/-- `getDefaultConfig(nodeType, subType)`.  Only called with a key that
passed the template check; an unknown condition key yields `[]` here
(in JS that code path is unreachable from `createNode`). -/
def getDefaultConfig (nodeType : NodeType) (subType : String) :
    List (String × JVal) :=
  match nodeType with
  | .condition =>
      match condTemplates.lookup subType with
      | some t =>
          [("field", .str t.field),
           ("operator",
            match t.operators.head? with
            | some op => .str op
            | none => .undef),
           ("value",
            if t.valueType == "boolean" then .bool true
            else if t.valueType == "number" then .num 0
            else match t.options.head? with
                 | some o => .str o
                 | none => .str "")]
      | none => []
  | .action =>
      if subType == "credit_reward" then
        [("amount", .num 100), ("currency", .str "INR"),
         ("reward_type", .str "voucher")]
      else if subType == "send_notification" then
        [("channel", .str "email"), ("template", .str "reward_credited")]
      else []
  | _ => []

/-- `createNode(data, x, y)`.  The JS increments `state.nextNodeId`
before the template check, so a failed drop still consumes an id. -/
def createNode (s : BState) (d : DropData) (x y : Int) : BState :=
  let nodeId := s.nextNodeId
  let s1 : BState := { s with nextNodeId := s.nextNodeId + 1 }
  if templateExists d then
    { s1 with nodes := s1.nodes ++
        [{ id := nodeId, type := dropType d, subType := dropSubType d,
           x := x - 90, y := y - 30,
           config := getDefaultConfig (dropType d) (dropSubType d) }] }
  else s1

/-- `handlePortClick(e, node, portType)`: first click arms
`state.connecting`; second click on a different node with the opposite
port type appends a connection unless an identical `(from, to)` pair
already exists, then clears `connecting`. -/
def handlePortClick (s : BState) (nid : Nat) (pt : PortType) : BState :=
  match s.connecting with
  | none => { s with connecting := some ⟨nid, pt⟩ }
  | some c =>
      if c.nodeId != nid && c.portType != pt then
        let fromN := if c.portType == PortType.output then c.nodeId else nid
        let toN := if c.portType == PortType.output then nid else c.nodeId
        if s.connections.any (fun x => x.fromId == fromN && x.toId == toN) then
          { s with connecting := none }
        else
          { s with connections := s.connections ++ [⟨fromN, toN⟩],
                   connecting := none }
      else { s with connecting := none }

/-- `deleteConnection(conn)`. -/
def deleteConnection (s : BState) (c : Conn) : BState :=
  let conns := s.connections.filter
    (fun x => !(x.fromId == c.fromId && x.toId == c.toId))
  { s with connections := conns }

/-- `deleteNode(nodeId)`: drops the node and every connection touching
it, clears the selection. -/
def deleteNode (s : BState) (nid : Nat) : BState :=
  { s with
      nodes := s.nodes.filter (fun n => !(n.id == nid)),
      connections := s.connections.filter
        (fun c => !(c.fromId == nid) && !(c.toId == nid)),
      selectedNode := none }

/-- `clearCanvas()` (note: `nextNodeId` is not reset in the JS). -/
def clearCanvas (s : BState) : BState :=
  { s with nodes := [], connections := [], selectedNode := none,
           connecting := none }

/-- `handleNodeClick`: selects a node. -/
def selectNode (s : BState) (nid : Nat) : BState :=
  { s with selectedNode := some nid }

/-- Overwrites the config bag of node `nid`.  This over-approximates
every config mutation in the source (`generateNodesFromRule` assigning
`operator`/`value` and `Object.assign` of action params), which never
touches `id`, `type` or `subType`. -/
def updateNodeConfig (s : BState) (nid : Nat) (cfg : List (String × JVal)) :
    BState :=
  { s with nodes :=
      s.nodes.map (fun n => if n.id == nid then { n with config := cfg } else n) }

/-- Builder states reachable from `initState` through the UI event
handlers. -/
inductive Reachable : BState → Prop where
  | init : Reachable initState
  | create (s : BState) (d : DropData) (x y : Int) :
      Reachable s → Reachable (createNode s d x y)
  | erase (s : BState) (nid : Nat) :
      Reachable s → Reachable (deleteNode s nid)
  | port (s : BState) (nid : Nat) (pt : PortType) :
      Reachable s → Reachable (handlePortClick s nid pt)
  | delConn (s : BState) (c : Conn) :
      Reachable s → Reachable (deleteConnection s c)
  | clear (s : BState) :
      Reachable s → Reachable (clearCanvas s)
  | config (s : BState) (nid : Nat) (cfg : List (String × JVal)) :
      Reachable s → Reachable (updateNodeConfig s nid cfg)
  | select (s : BState) (nid : Nat) :
      Reachable s → Reachable (selectNode s nid)

/-! ### `buildRuleJSON` -/

/-- A condition value in the exported rule JSON: the no-value fallback
leaf literal, a leaf copied from a condition node's config, or a group
of leaves under a logic operator. -/
inductive RCond where
  | leafNV (field operator : String)
  | leafV (field operator value : JVal)
  | group (operator : String) (conditions : List RCond)

/-- One exported action: `type` is the node's subType, `params` a copy
of its config bag. -/
structure RAction where
  type : String
  params : List (String × JVal)

/-- The exported rule object.  The JS id `rule-${Date.now()}` is
modelled with the clock value passed in as `now`. -/
structure Rule where
  id : String
  name : String
  description : String
  version : Nat
  is_active : Bool
  priority : Nat
  trigger : String
  conditions : RCond
  actions : List RAction

/-- Property read on a config bag: a JS object read that finds no key
yields `undefined`. -/
def jGet (cfg : List (String × JVal)) (k : String) : JVal :=
  (cfg.lookup k).getD JVal.undef

/-- The leaf built for one condition node inside the multi-condition
group (`{field, operator, value}` from the node's config). -/
def mkLeaf (n : FlowNode) : RCond :=
  .leafV (jGet n.config "field") (jGet n.config "operator")
    (jGet n.config "value")

/-- The group operator: `logicNodes[0].subType` when a logic node
exists, otherwise the `'AND'` fallback. -/
def logicOperator (s : BState) : String :=
  match (s.nodes.filter (fun n => n.type == NodeType.logic)).head? with
  | some l => l.subType
  | none => "AND"

/-- The action list defaulted when no action node exists. -/
def defaultActions : List RAction :=
  [{ type := "credit_reward",
     params := [("amount", .num 100), ("currency", .str "INR")] }]

/-- `buildRuleJSON()`. -/
def buildRuleJSON (s : BState) (now : Nat) : Rule :=
  let triggerNode := s.nodes.find? (fun n => n.type == NodeType.trigger)
  let conditionNodes := s.nodes.filter (fun n => n.type == NodeType.condition)
  let actionNodes := s.nodes.filter (fun n => n.type == NodeType.action)
  let conditions : RCond :=
    if conditionNodes.length = 0 then
      .leafNV "event.occurred" "is_true"
    else if conditionNodes.length = 1 then
      match conditionNodes.head? with
      | some n => mkLeaf n
      | none => .leafNV "" ""
    else
      .group (logicOperator s) (conditionNodes.map mkLeaf)
  let actions : List RAction :=
    actionNodes.map (fun n => { type := n.subType, params := n.config })
  { id := "rule-" ++ toString now,
    name := "Generated Rule",
    description := "Rule created with visual flow builder",
    version := 1,
    is_active := true,
    priority := 0,
    trigger := match triggerNode with
               | some n => n.subType
               | none => "referral_signup",
    conditions := conditions,
    actions := if actions.length > 0 then actions else defaultActions }

/-! ### Helper lemmas about the builder operations -/

theorem createNode_connections (s : BState) (d : DropData) (x y : Int) :
    (createNode s d x y).connections = s.connections := by
  unfold createNode
  dsimp only
  split <;> rfl

theorem handlePortClick_nodes (s : BState) (nid : Nat) (pt : PortType) :
    (handlePortClick s nid pt).nodes = s.nodes := by
  unfold handlePortClick
  rcases s.connecting with _ | c
  · rfl
  · dsimp only
    split
    · split <;> (split <;> rfl)
    · rfl

theorem all_of_sublist {α : Type} {p : α → Bool} {l l' : List α}
    (h : List.Sublist l' l) (ha : l.all p = true) : l'.all p = true := by
  rw [List.all_eq_true] at *
  intro x hx
  exact ha x (h.mem hx)

/-- Every logic node in a reachable state carries subType AND or OR:
`createNode` only accepts keys of `nodeTemplates.logic`, and no later
operation changes a node's `subType`. -/
theorem reachable_logic_subtype {s : BState} (h : Reachable s) :
    ∀ n ∈ s.nodes, n.type = NodeType.logic →
      n.subType = "AND" ∨ n.subType = "OR" := by
  induction h with
  | init => intro n hn; cases hn
  | create s d x y hr ih =>
      intro n hn htype
      by_cases htmp : templateExists d
      · simp only [createNode, if_pos htmp] at hn
        rcases List.mem_append.mp hn with hn | hn
        · exact ih n hn htype
        · simp only [List.mem_singleton] at hn
          subst hn
          cases d with
          | trigger t => simp [dropType] at htype
          | condition f => simp [dropType] at htype
          | action a => simp [dropType] at htype
          | logic l =>
              simp only [templateExists, logicKeys] at htmp
              simp only [dropSubType]
              simpa using htmp
      · simp only [createNode, if_neg htmp] at hn
        exact ih n hn htype
  | erase s nid hr ih =>
      intro n hn htype
      simp only [deleteNode] at hn
      exact ih n (List.mem_of_mem_filter hn) htype
  | port s nid pt hr ih =>
      intro n hn htype
      rw [handlePortClick_nodes] at hn
      exact ih n hn htype
  | delConn s c hr ih =>
      intro n hn htype
      exact ih n hn htype
  | clear s hr ih =>
      intro n hn htype
      cases hn
  | config s nid cfg hr ih =>
      intro n hn htype
      simp only [updateNodeConfig, List.mem_map] at hn
      obtain ⟨m, hm, hmn⟩ := hn
      by_cases hid : (m.id == nid) = true
      · rw [if_pos hid] at hmn
        subst hmn
        exact ih m hm htype
      · rw [if_neg hid] at hmn
        subst hmn
        exact ih m hm htype
  | select s nid hr ih =>
      intro n hn htype
      exact ih n hn htype

/-! ### Claims C5 - C9 -/

/-- C5: with zero condition nodes on the canvas, `buildRuleJSON`
returns exactly the always-true fallback leaf
`field = "event.occurred"`, `operator = "is_true"` as the rule's
conditions value. -/
theorem empty_conditions_fallback (s : BState) (now : Nat)
    (h : s.nodes.filter (fun n => n.type == NodeType.condition) = []) :
    (buildRuleJSON s now).conditions = RCond.leafNV "event.occurred" "is_true" := by
  simp [buildRuleJSON, h]

theorem empty_conditions_fallback_witness :
    (buildRuleJSON initState 0).conditions =
      RCond.leafNV "event.occurred" "is_true" :=
  empty_conditions_fallback initState 0 rfl

/-- C6 counterexample: on a canvas with no trigger node and no action
nodes, `buildRuleJSON` does not produce a validation error; it returns
a complete rule with the trigger silently defaulted to
`referral_signup` and the actions defaulted to one `credit_reward` of
amount 100 INR.  (No registration-time validation exists anywhere in
the repository.) -/
theorem missing_parts_not_rejected_cex :
    buildRuleJSON initState 0 =
      { id := "rule-0", name := "Generated Rule",
        description := "Rule created with visual flow builder",
        version := 1, is_active := true, priority := 0,
        trigger := "referral_signup",
        conditions := RCond.leafNV "event.occurred" "is_true",
        actions := defaultActions } := rfl

/-- C6 amended: on every canvas, independently of each other, a
missing trigger node makes `buildRuleJSON` default the rule's trigger
to `referral_signup`, and missing action nodes make it default the
actions to the single `credit_reward` action with amount 100 and
currency INR; no validation error is raised in either case. -/
theorem missing_parts_defaulted (s : BState) (now : Nat) :
    (s.nodes.find? (fun n => n.type == NodeType.trigger) = none →
      (buildRuleJSON s now).trigger = "referral_signup")
    ∧ (s.nodes.filter (fun n => n.type == NodeType.action) = [] →
      (buildRuleJSON s now).actions = defaultActions) := by
  constructor
  · intro hT
    simp [buildRuleJSON, hT]
  · intro hA
    simp [buildRuleJSON, hA]

theorem missing_parts_defaulted_witness :
    (buildRuleJSON (createNode initState (DropData.action "credit_reward") 0 0)
        0).trigger = "referral_signup"
    ∧ (buildRuleJSON
          (createNode initState (DropData.trigger "payment_received") 0 0)
          0).actions = defaultActions :=
  ⟨(missing_parts_defaulted
      (createNode initState (DropData.action "credit_reward") 0 0) 0).1
      (by decide),
   (missing_parts_defaulted
      (createNode initState (DropData.trigger "payment_received") 0 0) 0).2
      (by decide)⟩

/-- C7: with two or more condition nodes, the exported conditions value
is a group whose operator is the subType of the first logic node when
one exists (`"AND"` otherwise) — hence always `"AND"` or `"OR"` — and
whose conditions list holds exactly one leaf
(`field`, `operator`, `value` from the node's config) per condition
node, in the order the nodes appear in `state.nodes`, which is their
creation order because nodes are only ever appended. -/
theorem multi_condition_group (s : BState) (now : Nat) (h : Reachable s)
    (hlen : 2 ≤ (s.nodes.filter (fun n => n.type == NodeType.condition)).length) :
    (logicOperator s = "AND" ∨ logicOperator s = "OR")
    ∧ (buildRuleJSON s now).conditions =
        RCond.group (logicOperator s)
          ((s.nodes.filter (fun n => n.type == NodeType.condition)).map mkLeaf) := by
  constructor
  · unfold logicOperator
    cases hfl : (s.nodes.filter (fun n => n.type == NodeType.logic)).head? with
    | none => left; rfl
    | some l =>
        have hl : l ∈ s.nodes.filter (fun n => n.type == NodeType.logic) :=
          List.mem_of_mem_head? (Option.mem_def.mpr hfl)
        have hm := List.mem_filter.mp hl
        exact reachable_logic_subtype h l hm.1 (by simpa using hm.2)
  · have h0 : ¬((s.nodes.filter
        (fun n => n.type == NodeType.condition)).length = 0) := by omega
    have h1 : ¬((s.nodes.filter
        (fun n => n.type == NodeType.condition)).length = 1) := by omega
    simp only [buildRuleJSON, if_neg h0, if_neg h1]

theorem multi_condition_group_witness :
    (logicOperator
          (createNode
            (createNode initState (DropData.condition "referrer.is_paid_user") 0 0)
            (DropData.condition "payment.amount") 0 0) = "AND"
      ∨ logicOperator
          (createNode
            (createNode initState (DropData.condition "referrer.is_paid_user") 0 0)
            (DropData.condition "payment.amount") 0 0) = "OR")
    ∧ (buildRuleJSON
          (createNode
            (createNode initState (DropData.condition "referrer.is_paid_user") 0 0)
            (DropData.condition "payment.amount") 0 0) 0).conditions =
        RCond.group
          (logicOperator
            (createNode
              (createNode initState (DropData.condition "referrer.is_paid_user") 0 0)
              (DropData.condition "payment.amount") 0 0))
          (((createNode
                (createNode initState (DropData.condition "referrer.is_paid_user") 0 0)
                (DropData.condition "payment.amount") 0
                0).nodes.filter (fun n => n.type == NodeType.condition)).map mkLeaf) :=
  multi_condition_group
    (createNode
      (createNode initState (DropData.condition "referrer.is_paid_user") 0 0)
      (DropData.condition "payment.amount") 0 0) 0
    (Reachable.create
      (createNode initState (DropData.condition "referrer.is_paid_user") 0 0)
      (DropData.condition "payment.amount") 0 0
      (Reachable.create initState (DropData.condition "referrer.is_paid_user") 0 0
        Reachable.init))
    (by decide)

/-- C8: `deleteNode(id)` leaves no node with that id and no connection
with that id as an endpoint; everything else is unchanged — the
surviving nodes and connections are exactly the original lists filtered
down, in their original order. -/
theorem deleteNode_spec (s : BState) (nid : Nat) :
    ((deleteNode s nid).nodes.all (fun n => !(n.id == nid)) = true)
    ∧ ((deleteNode s nid).connections.all
        (fun c => !(c.fromId == nid) && !(c.toId == nid)) = true)
    ∧ (deleteNode s nid).nodes = s.nodes.filter (fun n => !(n.id == nid))
    ∧ (deleteNode s nid).connections =
        s.connections.filter (fun c => !(c.fromId == nid) && !(c.toId == nid)) := by
  refine ⟨?_, ?_, rfl, rfl⟩
  · rw [List.all_eq_true]
    intro n hn
    exact (List.mem_filter.mp hn).2
  · rw [List.all_eq_true]
    intro c hc
    exact (List.mem_filter.mp hc).2

/-- C9: in every reachable builder state the connection list contains
no self-loop (`fromId = toId` never holds) and no duplicate pair:
`handlePortClick` only completes a connection between two distinct
nodes holding opposite port types and skips pairs that already exist,
and every other operation only removes or keeps connections. -/
theorem connections_invariant (s : BState) (h : Reachable s) :
    s.connections.all (fun c => c.fromId != c.toId) = true
    ∧ s.connections.Nodup := by
  induction h with
  | init => exact ⟨rfl, List.nodup_nil⟩
  | create s d x y hr ih =>
      rw [createNode_connections]
      exact ih
  | erase s nid hr ih =>
      refine ⟨all_of_sublist (List.filter_sublist _) ih.1, ih.2.filter _⟩
  | port s nid pt hr ih =>
      unfold handlePortClick
      rcases s.connecting with _ | c
      · exact ih
      · dsimp only
        split
        · rename_i hguard
          have hne : c.nodeId ≠ nid := by
            have := (Bool.and_eq_true _ _).mp hguard
            simpa using this.1
          split
          · split
            · exact ih
            · rename_i hport hdup
              constructor
              · rw [List.all_eq_true]
                intro x hx
                rcases List.mem_append.mp hx with hx | hx
                · exact List.all_eq_true.mp ih.1 x hx
                · simp only [List.mem_singleton] at hx
                  subst hx
                  simpa using hne
              · rw [List.nodup_append]
                refine ⟨ih.2, List.nodup_singleton _, ?_⟩
                intro a ha hb
                simp only [List.mem_singleton] at hb
                subst hb
                rw [List.any_eq_true] at hdup
                exact absurd ⟨_, ha, by simp⟩ hdup
          · split
            · exact ih
            · rename_i hport hdup
              constructor
              · rw [List.all_eq_true]
                intro x hx
                rcases List.mem_append.mp hx with hx | hx
                · exact List.all_eq_true.mp ih.1 x hx
                · simp only [List.mem_singleton] at hx
                  subst hx
                  simpa using fun hh => hne hh.symm
              · rw [List.nodup_append]
                refine ⟨ih.2, List.nodup_singleton _, ?_⟩
                intro a ha hb
                simp only [List.mem_singleton] at hb
                subst hb
                rw [List.any_eq_true] at hdup
                exact absurd ⟨_, ha, by simp⟩ hdup
        · exact ih
  | delConn s c hr ih =>
      refine ⟨all_of_sublist (List.filter_sublist _) ih.1, ih.2.filter _⟩
  | clear s hr ih =>
      exact ⟨rfl, List.nodup_nil⟩
  | config s nid cfg hr ih =>
      exact ih
  | select s nid hr ih =>
      exact ih

theorem connections_invariant_witness :
    (handlePortClick (handlePortClick initState 1 PortType.output)
        2 PortType.input).connections.all (fun c => c.fromId != c.toId) = true
    ∧ (handlePortClick (handlePortClick initState 1 PortType.output)
        2 PortType.input).connections.Nodup :=
  connections_invariant
    (handlePortClick (handlePortClick initState 1 PortType.output)
      2 PortType.input)
    (Reachable.port (handlePortClick initState 1 PortType.output) 2
      PortType.input
      (Reachable.port initState 1 PortType.output Reachable.init))

/-! ### `parseNaturalLanguage`

Strings are processed as `List Char`.  `toLowerCase` is modelled with
`Char.toLower` (ASCII case folding; the keywords and regex literals the
function matches are all ASCII).  The two amount regexes are embedded
directly: alternatives are tried in pattern order at each position,
scanning positions left to right as the JS engine does; the optional
`.` of `rs\.?` and `s` of `rupees?` and the greedy `\s*`/`\d+` need no
further backtracking because no later pattern element can match a
character they gave back. -/

def lowerList (l : List Char) : List Char := l.map Char.toLower

def jsToLower (t : String) : String := String.mk (lowerList t.toList)

/-- `needle` is a prefix of `hay`. -/
def isPreOf : List Char → List Char → Bool
  | [], _ => true
  | _ :: _, [] => false
  | a :: as, b :: bs => a == b && isPreOf as bs

/-- `String.prototype.includes` on char lists. -/
def hasSubList (needle : List Char) : List Char → Bool
  | [] => needle.isEmpty
  | c :: rest => isPreOf needle (c :: rest) || hasSubList needle rest

/-- `textLower.includes(needle)`. -/
def includesStr (hay needle : String) : Bool :=
  hasSubList needle.toList hay.toList

/-- The JS regex `\s` class (the common members). -/
def jsWS (c : Char) : Bool :=
  c == ' ' || c == '\t' || c == '\n' || c == '\r' ||
    c.toNat == 11 || c.toNat == 12

def skipSpaces (l : List Char) : List Char := l.dropWhile jsWS

/-- Matches the alternation `(?:₹|rs\.?|inr|rupees?)` at the head of
`l` (already lowercased), returning the remainder after the token. -/
def matchCurrencyAt (l : List Char) : Option (List Char) :=
  if isPreOf ['₹'] l then some (l.drop 1)
  else if isPreOf ['r', 's'] l then
    some (match l.drop 2 with
          | '.' :: r2 => r2
          | r => r)
  else if isPreOf ['i', 'n', 'r'] l then some (l.drop 3)
  else if isPreOf ['r', 'u', 'p', 'e', 'e'] l then
    some (match l.drop 5 with
          | 's' :: r2 => r2
          | r => r)
  else none

/-- The first regex `(?:₹|rs\.?|inr|rupees?)\s*(\d+)` anchored at the
head of `l`; returns the captured digits. -/
def pat1At (l : List Char) : Option (List Char) :=
  match matchCurrencyAt l with
  | none => none
  | some r =>
      let ds := (skipSpaces r).takeWhile Char.isDigit
      if ds.isEmpty then none else some ds

def scan1 : List Char → Option (List Char)
  | [] => none
  | c :: rest =>
      match pat1At (c :: rest) with
      | some ds => some ds
      | none => scan1 rest

/-- The second regex `(\d+)\s*(?:₹|rs\.?|inr|rupees?)` anchored at the
head of `l`; returns the captured digits. -/
def pat2At (l : List Char) : Option (List Char) :=
  let ds := l.takeWhile Char.isDigit
  if ds.isEmpty then none
  else if (matchCurrencyAt (skipSpaces (l.dropWhile Char.isDigit))).isSome then
    some ds
  else none

def scan2 : List Char → Option (List Char)
  | [] => none
  | c :: rest =>
      match pat2At (c :: rest) with
      | some ds => some ds
      | none => scan2 rest

/-- `text.match(re1) || text.match(re2)`, reduced to the captured digit
group. -/
def nlScan (l : List Char) : Option (List Char) :=
  match scan1 l with
  | some ds => some ds
  | none => scan2 l

/-- `parseInt` on a non-empty digit string (exact; the inputs are
`\d+` captures). -/
def digitsToNat (ds : List Char) : Nat :=
  ds.foldl (fun a c => a * 10 + (c.toNat - 48)) 0

/-- The amount detected by `parseNaturalLanguage` (100 when neither
regex matches). -/
def nlAmount (text : String) : Nat :=
  match nlScan (lowerList text.toList) with
  | some ds => digitsToNat ds
  | none => 100

/-- The reward type detected by `parseNaturalLanguage`. -/
def nlRewardType (textLower : String) : String :=
  if includesStr textLower "cash" then "cash"
  else if includesStr textLower "point" then "points"
  else "voucher"

/-- The rule object returned by `parseNaturalLanguage` (same leaf and
action shapes as the exported rule JSON). -/
structure NLRule where
  trigger : String
  conditions : List RCond
  actions : List RAction

/-- `parseNaturalLanguage(text)`. -/
def parseNaturalLanguage (text : String) : NLRule :=
  let textLower := jsToLower text
  let trigger :=
    if includesStr textLower "subscri" then "subscription_started"
    else if includesStr textLower "payment" || includesStr textLower "pay" then
      "payment_received"
    else "referral_signup"
  let conditions :=
    (if includesStr textLower "paid user" || includesStr textLower "paid member"
     then [RCond.leafV (.str "referrer.is_paid_user") (.str "equals") (.bool true)]
     else [])
    ++ (if includesStr textLower "premium"
        then [RCond.leafV (.str "referred.subscription_plan") (.str "equals")
                (.str "premium")]
        else [])
    ++ (if includesStr textLower "vip"
        then [RCond.leafV (.str "referrer.tier") (.str "equals") (.str "VIP")]
        else [])
  { trigger := trigger,
    conditions :=
      if conditions.length > 0 then conditions
      else [RCond.leafNV "referred.signup_completed" "is_true"],
    actions := [{ type := "credit_reward",
                  params := [("amount", .num (nlAmount text)),
                             ("currency", .str "INR"),
                             ("reward_type", .str (nlRewardType textLower))] }] }

/-! ### Claim C10 -/

/-- C10 counterexample: on input `"rs 0"` the amount regex matches and
`parseInt` yields 0, so the single `credit_reward` action carries
amount 0 — not a positive integer. -/
theorem parseNaturalLanguage_zero_amount_cex :
    (parseNaturalLanguage "rs 0").actions =
      [{ type := "credit_reward",
         params := [("amount", JVal.num 0), ("currency", JVal.str "INR"),
                    ("reward_type", JVal.str "voucher")] }] := rfl

theorem ite_cons_ne_nil {α : Type} (c : Prop) [Decidable c] (l l2 : List α)
    (x : α) (h : c → l ≠ []) : (if c then l else x :: l2) ≠ [] := by
  split
  · rename_i hc; exact h hc
  · simp

/-- C10 amended: for every input string, `parseNaturalLanguage` returns
a rule whose trigger is one of `referral_signup`,
`subscription_started`, `payment_received`; whose conditions list is
non-empty (a default signup-completed leaf is supplied when no keyword
matches); and whose actions list is exactly one `credit_reward` action
with currency `"INR"` and a non-negative integer amount, the amount
being 100 when neither amount regex matches. -/
theorem parseNaturalLanguage_shape (text : String) :
    ((parseNaturalLanguage text).trigger = "referral_signup"
      ∨ (parseNaturalLanguage text).trigger = "subscription_started"
      ∨ (parseNaturalLanguage text).trigger = "payment_received")
    ∧ (parseNaturalLanguage text).conditions ≠ []
    ∧ (parseNaturalLanguage text).actions =
        [{ type := "credit_reward",
           params := [("amount", JVal.num (nlAmount text)),
                      ("currency", JVal.str "INR"),
                      ("reward_type", JVal.str (nlRewardType (jsToLower text)))] }]
    ∧ ((nlScan (lowerList text.toList)).isSome = true ∨ nlAmount text = 100) := by
  refine ⟨?_, ?_, rfl, ?_⟩
  · simp only [parseNaturalLanguage]
    split_ifs <;> simp
  · simp only [parseNaturalLanguage]
    exact ite_cons_ne_nil _ _ _ _ (fun hpos => List.length_pos.mp hpos)
  · rcases hs : nlScan (lowerList text.toList) with _ | ds
    · right
      unfold nlAmount
      rw [hs]
    · left
      rfl
